import Mathlib

/-!
# Generic column predicate (be/src/storage/vectorized/column_operator_predicate.h)

A shallow embedding of `ColumnOperatorPredicate`: the four evaluation entry
points over a selection vector, written as pure functions that return the
selection array the C++ code leaves behind.

Conventions of the embedding
* a `uint8_t* sel` / `uint16_t* sel` array is a `List Nat`; a store is
  `List.set`, a load is `List.getD _ _ 0`;
* a C++ `bool` stored into an integer cell is `Bool.toNat` (0 or 1), an integer
  used as a condition is compared with 0;
* `uint16_t` arithmetic that can overflow is written with an explicit
  `% 65536`;
* `for (i = a; i < b; i++) body` is `for_range body (b - a) a`.
-/

namespace starrocks.vectorized

/-- The column handed to a predicate. `plain` is a column that is not nullable
(`is_nullable()` is false, and so is `has_null()`); `nullable` is a
`NullableColumn`: the wrapped data column, the null indicator bytes returned by
`immutable_null_column_data()` and the flag returned by `has_null()`. The type
`D` stands for the template parameter `ColumnType`. -/
inductive Column (D : Type) where
  | plain (data : D)
  | nullable (data_column : D) (null_data : List Nat) (has_null : Bool)

namespace Column

variable {D : Type}

/-- Result of `column->is_nullable()`. -/
def is_nullable : Column D → Bool
  | plain _ => false
  | nullable _ _ _ => true

/-- Result of `column->has_null()`. -/
def has_null : Column D → Bool
  | plain _ => false
  | nullable _ _ h => h

/-- Null indicator bytes, `immutable_null_column_data().data()`; a column that
is not nullable has none. -/
def null_data : Column D → List Nat
  | plain _ => []
  | nullable _ nd _ => nd

/-- The pointer `lowcard_column` computed at the top of every entry point: the
wrapped data column of a nullable column, the column itself otherwise. -/
def lowcard_column : Column D → D
  | plain d => d
  | nullable d _ _ => d

/-- Row `i` is null: the column is nullable and its null indicator at `i` is
non-zero. -/
def is_null_at (column : Column D) (i : Nat) : Bool :=
  column.null_data.getD i 0 != 0

/-- The `has_null()` flag is exact: it is true exactly when some null
indicator of the column is set. -/
def flag_exact (column : Column D) : Prop :=
  column.has_null = true ↔ ∃ j, j < column.null_data.length ∧ column.null_data.getD j 0 ≠ 0

/-- The rows `[0, n)` lie within the column's null indicator array (a column
that is not nullable has no such array to stay inside). -/
def covers : Column D → Nat → Prop
  | plain _, _ => True
  | nullable _ nd _, n => n ≤ nd.length

end Column

/-- The template parameter `ColumnOperator<field_type>`, as far as the
evaluation entry points use it: the row test `eval_at(column, row)`. -/
structure ColumnOperator (D : Type) where
  eval_at : D → Nat → Bool

/-- A counted loop: `for_range body n i s` runs `body i`, `body (i+1)`, ...,
`body (i+n-1)` on the state `s`, in this order. -/
def for_range {σ : Type} (body : Nat → σ → σ) : Nat → Nat → σ → σ
  | 0, _, s => s
  | n + 1, i, s => for_range body n (i + 1) (body i s)

namespace ColumnOperatorPredicate

variable {D : Type}

/-- Embedding of `ColumnOperatorPredicate::evaluate`. -/
def evaluate (_predicate_operator : ColumnOperator D) (column : Column D)
    (sel : List Nat) (from_ to_ : Nat) : List Nat :=
  let lowcard_column := column.lowcard_column
  if !column.has_null then
    for_range (fun i sel => sel.set i (_predicate_operator.eval_at lowcard_column i).toNat)
      (to_ - from_) from_ sel
  else
    let null_data := column.null_data
    for_range
      (fun i sel =>
        sel.set i (!(null_data.getD i 0 != 0) && _predicate_operator.eval_at lowcard_column i).toNat)
      (to_ - from_) from_ sel

/-- Embedding of `ColumnOperatorPredicate::evaluate_and`. -/
def evaluate_and (_predicate_operator : ColumnOperator D) (column : Column D)
    (sel : List Nat) (from_ to_ : Nat) : List Nat :=
  let lowcard_column := column.lowcard_column
  if !column.has_null then
    for_range
      (fun i sel =>
        sel.set i ((sel.getD i 0 != 0) && _predicate_operator.eval_at lowcard_column i).toNat)
      (to_ - from_) from_ sel
  else
    let null_data := column.null_data
    for_range
      (fun i sel =>
        sel.set i ((sel.getD i 0 != 0) && !(null_data.getD i 0 != 0)
          && _predicate_operator.eval_at lowcard_column i).toNat)
      (to_ - from_) from_ sel

/-- Embedding of `ColumnOperatorPredicate::evaluate_or`. -/
def evaluate_or (_predicate_operator : ColumnOperator D) (column : Column D)
    (sel : List Nat) (from_ to_ : Nat) : List Nat :=
  let lowcard_column := column.lowcard_column
  if !column.has_null then
    for_range
      (fun i sel =>
        sel.set i ((sel.getD i 0 != 0) || _predicate_operator.eval_at lowcard_column i).toNat)
      (to_ - from_) from_ sel
  else
    let null_data := column.null_data
    for_range
      (fun i sel =>
        sel.set i ((sel.getD i 0 != 0)
          || (!(null_data.getD i 0 != 0) && _predicate_operator.eval_at lowcard_column i)).toNat)
      (to_ - from_) from_ sel

/-- Embedding of `ColumnOperatorPredicate::evaluate_branchless`. The state of
the loop is the array `sel` and the output cursor `new_size`; the result is the
array as left behind together with the returned `new_size`. -/
def evaluate_branchless (_predicate_operator : ColumnOperator D) (column : Column D)
    (sel : List Nat) (sel_size : Nat) : List Nat × Nat :=
  let lowcard_column := column.lowcard_column
  let new_size := 0
  if !column.has_null then
    for_range
      (fun i (st : List Nat × Nat) =>
        let data_idx := st.1.getD i 0
        (st.1.set st.2 data_idx,
          (st.2 + (_predicate_operator.eval_at lowcard_column i).toNat) % 65536))
      (sel_size - 0) 0 (sel, new_size)
  else
    let null_data := column.null_data
    for_range
      (fun i (st : List Nat × Nat) =>
        let data_idx := st.1.getD i 0
        (st.1.set st.2 data_idx,
          (st.2 + (!(null_data.getD data_idx 0 != 0)
            && _predicate_operator.eval_at lowcard_column i).toNat) % 65536))
      (sel_size - 0) 0 (sel, new_size)

/-- The row-level verdict the specification calls `passes(d)`: row `d` is not
null and the operator's `eval_at` on the data column at row `d` is true. -/
def passes (_predicate_operator : ColumnOperator D) (column : Column D) (d : Nat) : Bool :=
  !column.is_null_at d && _predicate_operator.eval_at column.lowcard_column d

/-- The boolean added to `new_size` at loop step `i` of `evaluate_branchless`,
where `data_idx` is the value loaded from `sel[i]` at that step: the test of
the first loop when `has_null()` is false, of the second loop otherwise. -/
def step_test (_predicate_operator : ColumnOperator D) (column : Column D)
    (i data_idx : Nat) : Bool :=
  if !column.has_null then
    _predicate_operator.eval_at column.lowcard_column i
  else
    !(column.null_data.getD data_idx 0 != 0) && _predicate_operator.eval_at column.lowcard_column i

end ColumnOperatorPredicate

/-- One iteration of the compaction loop for a test `t i data_idx`: store the
loaded index at the cursor, advance the 16-bit cursor by the test. -/
def compact_step (t : Nat → Nat → Bool) (i : Nat) (st : List Nat × Nat) : List Nat × Nat :=
  (st.1.set st.2 (st.1.getD i 0), (st.2 + (t i (st.1.getD i 0)).toNat) % 65536)

/-- The entries of the input index array `I` whose loop step, among the first
`k` steps, had a true test, in input order. -/
def kept (t : Nat → Nat → Bool) (I : List Nat) : Nat → List Nat
  | 0 => []
  | k + 1 => if t k (I.getD k 0) then kept t I k ++ [I.getD k 0] else kept t I k

/-- The number of loop steps, among the first `k`, whose test was true, counted
in unbounded arithmetic. -/
def true_steps (t : Nat → Nat → Bool) (I : List Nat) (k : Nat) : Nat :=
  (List.range k).countP (fun i => t i (I.getD i 0))

/-- One iteration of a loop that rewrites cell `i` from its old content. -/
def cell_step (g : Nat → Nat → Nat) (i : Nat) (sel : List Nat) : List Nat :=
  sel.set i (g i (sel.getD i 0))

/-- An operator over a column of booleans whose `eval_at` reads the row. -/
def row_flag_operator : ColumnOperator (List Bool) where
  eval_at := fun data i => data.getD i false

/-- Modelled from the spec: the comparison operator `col >= value` of the
specification's scenario 2 (the operator classes are template arguments
declared outside this header). Its `eval_at` compares the value stored at the
row with the literal. -/
def ge_operator (value : Int) : ColumnOperator (List Int) where
  eval_at := fun data i => decide (value ≤ data.getD i 0)

/-- The nullable column `[5, null, 15, 20]` of scenario 2: null indicators
`[0,1,0,0]`, `has_null()` true, and an arbitrary value `x` stored under the
null row. -/
def scenario2_column (x : Int) : Column (List Int) :=
  Column.nullable [5, x, 15, 20] [0, 1, 0, 0] true

/-! ## Index pushdown delegation (same header) -/

/-- The template parameter `ColumnOperator<field_type>`, as far as index
pushdown uses it: `zone_map_filter(detail)`, the static
`support_bloom_filter()` and `bloom_filter(bf)`. `Z` stands for
`ZoneMapDetail`, `B` for `BloomFilter`. -/
structure PushdownOperator (Z B : Type) where
  zone_map_filter : Z → Bool
  support_bloom_filter : Bool
  bloom_filter : B → Bool

/-- The assertion macro `DCHECK(cond)` of the logging library, which this
header uses and does not define: where debug checks are compiled in
(`dcheck_is_on`) a false condition aborts the call (`none`); where they are
compiled out the macro does nothing. -/
def DCHECK (dcheck_is_on cond : Bool) : Option Unit :=
  if dcheck_is_on && !cond then none else some ()

namespace ColumnOperatorPredicate

/-- Embedding of `ColumnOperatorPredicate::zone_map_filter`. -/
def zone_map_filter {Z B : Type} (_predicate_operator : PushdownOperator Z B) (detail : Z) : Bool :=
  _predicate_operator.zone_map_filter detail

/-- Embedding of `ColumnOperatorPredicate::support_bloom_filter`. -/
def support_bloom_filter {Z B : Type} (_predicate_operator : PushdownOperator Z B) : Bool :=
  _predicate_operator.support_bloom_filter

/-- Embedding of `ColumnOperatorPredicate::bloom_filter`; `none` is a call
aborted by the `DCHECK`. -/
def bloom_filter {Z B : Type} (dcheck_is_on : Bool) (_predicate_operator : PushdownOperator Z B)
    (bf : B) : Option Bool :=
  (DCHECK dcheck_is_on (support_bloom_filter _predicate_operator)).bind fun _ =>
    if _predicate_operator.support_bloom_filter then
      some (_predicate_operator.bloom_filter bf)
    else
      some true

end ColumnOperatorPredicate

/-- An operator without bloom filter support (a range comparison, say); its
zone map test always answers "maybe". -/
def no_bloom_operator : PushdownOperator Unit Unit where
  zone_map_filter := fun _ => true
  support_bloom_filter := false
  bloom_filter := fun _ => false

/-- An operator with bloom filter support whose filter answers "no match". -/
def bloom_operator : PushdownOperator Unit Unit where
  zone_map_filter := fun _ => false
  support_bloom_filter := true
  bloom_filter := fun _ => false

end starrocks.vectorized

/-!
# Thread-local memory accounting (be/src/runtime/current_thread.h)

The thread-local variables and the members of `CurrentThread` are the fields
of `ThreadState`; a `MemTracker*` is an `Option Nat` (`none` is `nullptr`,
`some k` is the tracker numbered `k`). The class `MemTracker` is declared
outside this header: the calls the code makes on trackers are recorded, oldest
first, in the `calls` log, and the answer of `MemTracker::try_consume` is
supplied by the environment. `int64_t` amounts are exact integers.
-/

namespace starrocks

/-- A call made on a `MemTracker`: `consume(bytes)`, `release(bytes)`, or
`try_consume(bytes)` together with the pointer it returned (`none` when the
bytes were accepted, otherwise the tracker whose limit rejected them). -/
inductive TrackerCall where
  | consume (tracker : Nat) (bytes : Int)
  | release (tracker : Nat) (bytes : Int)
  | try_consume (tracker : Nat) (bytes : Int) (limit_tracker : Option Nat)
  deriving DecidableEq

/-- Modelled from the spec: the bytes one call charges to tracker `t`
(`MemTracker` is declared in runtime/mem_tracker.h, outside the files at
hand). `consume` adds its bytes, `release` subtracts them, an accepted
`try_consume` adds its bytes and a rejected `try_consume` charges nothing. -/
def TrackerCall.charge (t : Nat) : TrackerCall → Int
  | TrackerCall.consume k b => if k = t then b else 0
  | TrackerCall.release k b => if k = t then -b else 0
  | TrackerCall.try_consume k b none => if k = t then b else 0
  | TrackerCall.try_consume _ _ (some _) => 0

/-- Net bytes reported to tracker `t` by a log of calls: consumed minus
released. -/
def charged (t : Nat) (calls : List TrackerCall) : Int :=
  (calls.map (TrackerCall.charge t)).sum

/-- What the header consults outside itself:
`ExecEnv::GetInstance()->process_mem_tracker()` and the pointer returned by
`MemTracker::try_consume(bytes)` on a tracker, which may depend on the calls
made so far. -/
structure ExecEnv where
  process_mem_tracker : Option Nat
  try_consume : List TrackerCall → Nat → Int → Option Nat

/-- The thread-local variables `tls_mem_tracker`, `tls_exceed_mem_tracker`,
the member `_cache_size` of `tls_thread_status`, and the log of calls made on
trackers. -/
structure ThreadState where
  tls_mem_tracker : Option Nat
  tls_exceed_mem_tracker : Option Nat
  _cache_size : Int
  calls : List TrackerCall
  deriving DecidableEq

namespace CurrentThread

/-- The constant `CurrentThread::BATCH_SIZE`. -/
def BATCH_SIZE : Int := 2 * 1024 * 1024

/-- Embedding of `CurrentThread::mem_tracker`: the reported tracker and the
state (a null `tls_mem_tracker` is first replaced by the process tracker). -/
def mem_tracker (env : ExecEnv) (s : ThreadState) : Option Nat × ThreadState :=
  let s := if s.tls_mem_tracker = none then
      { s with tls_mem_tracker := env.process_mem_tracker }
    else s
  (s.tls_mem_tracker, s)

/-- Embedding of `CurrentThread::commit`. -/
def commit (env : ExecEnv) (s : ThreadState) : ThreadState :=
  let (cur_tracker, s) := mem_tracker env s
  match cur_tracker with
  | some tracker =>
    if s._cache_size ≠ 0 then
      { s with calls := s.calls ++ [TrackerCall.consume tracker s._cache_size], _cache_size := 0 }
    else s
  | none => s

/-- Embedding of `CurrentThread::set_mem_tracker`: the returned previous
tracker and the state. -/
def set_mem_tracker (env : ExecEnv) (mem_tracker : Option Nat) (s : ThreadState) :
    Option Nat × ThreadState :=
  let s := commit env s
  let prev := s.tls_mem_tracker
  (prev, { s with tls_mem_tracker := mem_tracker })

/-- Embedding of `CurrentThread::mem_consume`. -/
def mem_consume (env : ExecEnv) (size : Int) (s : ThreadState) : ThreadState :=
  let (cur_tracker, s) := mem_tracker env s
  let s := { s with _cache_size := s._cache_size + size }
  match cur_tracker with
  | some tracker =>
    if s._cache_size ≥ BATCH_SIZE then
      { s with calls := s.calls ++ [TrackerCall.consume tracker s._cache_size], _cache_size := 0 }
    else s
  | none => s

/-- Embedding of `CurrentThread::try_mem_consume`: the returned flag and the
state. -/
def try_mem_consume (env : ExecEnv) (size : Int) (s : ThreadState) : Bool × ThreadState :=
  let (cur_tracker, s) := mem_tracker env s
  let s := { s with _cache_size := s._cache_size + size }
  match cur_tracker with
  | some tracker =>
    if s._cache_size ≥ BATCH_SIZE then
      let limit_tracker := env.try_consume s.calls tracker s._cache_size
      let s := { s with
        calls := s.calls ++ [TrackerCall.try_consume tracker s._cache_size limit_tracker] }
      match limit_tracker with
      | none => (true, { s with _cache_size := 0 })
      | some l =>
        (false, { s with _cache_size := s._cache_size - size, tls_exceed_mem_tracker := some l })
    else (true, s)
  | none => (true, s)

/-- Embedding of `CurrentThread::try_mem_consume_without_cache`. -/
def try_mem_consume_without_cache (env : ExecEnv) (size : Int) (s : ThreadState) :
    Bool × ThreadState :=
  let (cur_tracker, s) := mem_tracker env s
  match cur_tracker with
  | some tracker =>
    if size ≠ 0 then
      let limit_tracker := env.try_consume s.calls tracker size
      let s := { s with calls := s.calls ++ [TrackerCall.try_consume tracker size limit_tracker] }
      match limit_tracker with
      | none => (true, s)
      | some _ => (false, s)
    else (true, s)
  | none => (true, s)

/-- Embedding of `CurrentThread::mem_release`. -/
def mem_release (env : ExecEnv) (size : Int) (s : ThreadState) : ThreadState :=
  let (cur_tracker, s) := mem_tracker env s
  let s := { s with _cache_size := s._cache_size - size }
  match cur_tracker with
  | some tracker =>
    if s._cache_size ≤ -BATCH_SIZE then
      { s with calls := s.calls ++ [TrackerCall.release tracker (-s._cache_size)], _cache_size := 0 }
    else s
  | none => s

end CurrentThread

/-- One call on `tls_thread_status` among the four cached operations. -/
inductive Call where
  | mem_consume (size : Int)
  | mem_release (size : Int)
  | try_mem_consume (size : Int)
  | commit
  deriving DecidableEq

/-- The size argument of a call (`commit` has none). -/
def Call.size : Call → Int
  | Call.mem_consume n => n
  | Call.mem_release n => n
  | Call.try_mem_consume n => n
  | Call.commit => 0

/-- Perform one call: the state afterwards. -/
def Call.step (env : ExecEnv) : Call → ThreadState → ThreadState
  | Call.mem_consume n, s => CurrentThread.mem_consume env n s
  | Call.mem_release n, s => CurrentThread.mem_release env n s
  | Call.try_mem_consume n, s => (CurrentThread.try_mem_consume env n s).2
  | Call.commit, s => CurrentThread.commit env s

/-- The bytes a call asks to account for when performed in state `s`: the size
of a `mem_consume`, the size of a `try_mem_consume` that returns true, minus
the size of a `mem_release`; nothing otherwise. -/
def Call.requested (env : ExecEnv) : Call → ThreadState → Int
  | Call.mem_consume n, _ => n
  | Call.mem_release n, _ => -n
  | Call.try_mem_consume n, s => if (CurrentThread.try_mem_consume env n s).1 then n else 0
  | Call.commit, _ => 0

/-- Perform a finite sequence of calls, first to last. -/
def run_calls (env : ExecEnv) : List Call → ThreadState → ThreadState
  | [], s => s
  | c :: cs, s => run_calls env cs (c.step env s)

/-- The sum of `Call.requested` along a sequence of calls. -/
def requested_total (env : ExecEnv) : List Call → ThreadState → Int
  | [], _ => 0
  | c :: cs, s => c.requested env s + requested_total env cs (c.step env s)

/-- The member `_old_mem_tracker` of a `CurrentThreadMemTrackerSetter`. -/
structure CurrentThreadMemTrackerSetter where
  _old_mem_tracker : Option Nat

namespace CurrentThreadMemTrackerSetter

/-- The constructor `CurrentThreadMemTrackerSetter(new_mem_tracker)`. -/
def construct (env : ExecEnv) (new_mem_tracker : Option Nat) (s : ThreadState) :
    CurrentThreadMemTrackerSetter × ThreadState :=
  let r := CurrentThread.set_mem_tracker env new_mem_tracker s
  ({ _old_mem_tracker := r.1 }, r.2)

/-- The destructor `~CurrentThreadMemTrackerSetter()`. -/
def destroy (env : ExecEnv) (self : CurrentThreadMemTrackerSetter) (s : ThreadState) :
    ThreadState :=
  (CurrentThread.set_mem_tracker env self._old_mem_tracker s).2

end CurrentThreadMemTrackerSetter

/-- A block of code run by the thread: nothing, a call followed by the rest,
or a scope `{ CurrentThreadMemTrackerSetter setter(t); body }` followed by the
rest. Scopes nest to any depth. -/
inductive Block where
  | done
  | call (c : Call) (rest : Block)
  | in_scope (new_mem_tracker : Option Nat) (body rest : Block)

/-- Run a block: a scope constructs its setter, runs its body and destroys the
setter. -/
def Block.run (env : ExecEnv) : Block → ThreadState → ThreadState
  | Block.done, s => s
  | Block.call c rest, s => rest.run env (c.step env s)
  | Block.in_scope t body rest, s =>
    let r := CurrentThreadMemTrackerSetter.construct env t s
    rest.run env (CurrentThreadMemTrackerSetter.destroy env r.1 (body.run env r.2))

/-- An environment without process tracker whose trackers accept every
`try_consume`. -/
def accepting_env : ExecEnv where
  process_mem_tracker := none
  try_consume := fun _ _ _ => none

/-- An environment without process tracker in which every `try_consume` is
rejected by the limit of tracker 7. -/
def rejecting_env : ExecEnv where
  process_mem_tracker := none
  try_consume := fun _ _ _ => some 7

/-- A thread whose current tracker is tracker `t`, with the given cache and
nothing reported yet. -/
def thread_on (t : Nat) (cache : Int) : ThreadState where
  tls_mem_tracker := some t
  tls_exceed_mem_tracker := none
  _cache_size := cache
  calls := []

end starrocks

namespace starrocks.vectorized

/-! ## Loops -/

theorem for_range_succ_last {σ : Type} (body : Nat → σ → σ) (n i : Nat) (s : σ) :
    for_range body (n + 1) i s = body (i + n) (for_range body n i s) := by
  induction n generalizing i s with
  | zero => rfl
  | succ n ih =>
    have h := ih (i + 1) (body i s)
    simp only [for_range] at h ⊢
    rw [h]
    congr 1
    omega

theorem cell_loop_length (g : Nat → Nat → Nat) (n a : Nat) (sel : List Nat) :
    (for_range (cell_step g) n a sel).length = sel.length := by
  induction n generalizing a sel with
  | zero => rfl
  | succ n ih => simp [for_range, ih, cell_step]

theorem cell_loop_outside (g : Nat → Nat → Nat) (n a : Nat) (sel : List Nat) (j : Nat)
    (hj : j < a ∨ a + n ≤ j) :
    (for_range (cell_step g) n a sel)[j]? = sel[j]? := by
  induction n generalizing a sel with
  | zero => rfl
  | succ n ih =>
    simp only [for_range]
    rw [ih (a + 1) _ (by omega)]
    simp only [cell_step]
    rw [List.getElem?_set_ne (by omega)]

theorem cell_loop_inside (g : Nat → Nat → Nat) (n a : Nat) (sel : List Nat) (j : Nat)
    (h1 : a ≤ j) (h2 : j < a + n) (h3 : j < sel.length) :
    (for_range (cell_step g) n a sel)[j]? = some (g j (sel.getD j 0)) := by
  induction n generalizing a sel with
  | zero => omega
  | succ n ih =>
    simp only [for_range]
    by_cases hja : j = a
    · subst hja
      rw [cell_loop_outside g n (j + 1) _ j (by omega)]
      simp only [cell_step]
      rw [List.getElem?_set_self h3]
    · rw [ih (a + 1) _ (by omega) (by omega) (by simpa [cell_step] using h3)]
      simp only [cell_step, List.getD_eq_getElem?_getD]
      rw [List.getElem?_set_ne (by omega)]

/-! ## The compaction loop -/

theorem kept_length_le (t : Nat → Nat → Bool) (I : List Nat) (k : Nat) :
    (kept t I k).length ≤ k := by
  induction k with
  | zero => simp [kept]
  | succ k ih =>
    simp only [kept]
    split
    · simp only [List.length_append, List.length_singleton]
      omega
    · omega

theorem kept_length_eq_true_steps (t : Nat → Nat → Bool) (I : List Nat) (k : Nat) :
    (kept t I k).length = true_steps t I k := by
  induction k with
  | zero => simp [kept, true_steps]
  | succ k ih =>
    unfold true_steps at ih ⊢
    simp only [kept, List.range_succ, List.countP_append, List.countP_cons, List.countP_nil]
    split <;> simp_all

theorem kept_sublist (t : Nat → Nat → Bool) (I : List Nat) (k : Nat) (hk : k ≤ I.length) :
    (kept t I k).Sublist (I.take k) := by
  induction k with
  | zero => simp [kept]
  | succ k ih =>
    have hlt : k < I.length := hk
    have hget : I.getD k 0 = I[k] := by
      simp [List.getD_eq_getElem?_getD, List.getElem?_eq_getElem hlt]
    rw [List.take_succ, List.getElem?_eq_getElem hlt]
    simp only [kept, Option.toList_some, hget]
    split
    · exact (ih (by omega)).append (List.Sublist.refl _)
    · exact (ih (by omega)).trans (List.sublist_append_left _ _)

theorem kept_mem (t : Nat → Nat → Bool) (I : List Nat) (k d : Nat) (hd : d ∈ kept t I k) :
    ∃ i, i < k ∧ I.getD i 0 = d ∧ t i d = true := by
  induction k with
  | zero => simp [kept] at hd
  | succ k ih =>
    simp only [kept] at hd
    split at hd
    · next ht =>
      rcases List.mem_append.mp hd with h | h
      · obtain ⟨i, hi, hI, hti⟩ := ih h
        exact ⟨i, by omega, hI, hti⟩
      · have hdk : d = I.getD k 0 := by simpa using h
        exact ⟨k, by omega, hdk.symm, by rw [hdk]; exact ht⟩
    · obtain ⟨i, hi, hI, hti⟩ := ih hd
      exact ⟨i, by omega, hI, hti⟩

theorem compact_loop_inv (t : Nat → Nat → Bool) (I : List Nat) (k : Nat)
    (hk : k ≤ I.length) (hk16 : k < 65536) :
    (for_range (compact_step t) k 0 (I, 0)).2 = (kept t I k).length
      ∧ (for_range (compact_step t) k 0 (I, 0)).1.length = I.length
      ∧ (∀ a, a < (kept t I k).length →
          (for_range (compact_step t) k 0 (I, 0)).1[a]? = (kept t I k)[a]?)
      ∧ (∀ j, k ≤ j → (for_range (compact_step t) k 0 (I, 0)).1[j]? = I[j]?) := by
  induction k with
  | zero => simp [for_range, kept]
  | succ k ih =>
    obtain ⟨h1, h2, h3, h4⟩ := ih (by omega) (by omega)
    have hle := kept_length_le t I k
    rw [for_range_succ_last]
    generalize for_range (compact_step t) k 0 (I, 0) = st at h1 h2 h3 h4
    obtain ⟨sel, ns⟩ := st
    simp only at h1 h2 h3 h4
    have hload : sel.getD k 0 = I.getD k 0 := by
      simp only [List.getD_eq_getElem?_getD, h4 k (Nat.le_refl k)]
    simp only [compact_step, Nat.zero_add, hload, List.length_set, h2, kept]
    subst h1
    cases ht : t k (I.getD k 0)
    · simp only [Bool.toNat_false, Nat.add_zero, Bool.false_eq_true, if_false]
      refine ⟨Nat.mod_eq_of_lt (by omega), trivial, ?_, ?_⟩
      · intro a ha
        rw [List.getElem?_set_ne (by omega)]
        exact h3 a ha
      · intro j hj
        rw [List.getElem?_set_ne (by omega)]
        exact h4 j (by omega)
    · simp only [Bool.toNat_true, if_true, List.length_append, List.length_singleton]
      refine ⟨Nat.mod_eq_of_lt (by omega), trivial, ?_, ?_⟩
      · intro a ha
        by_cases hlast : a = (kept t I k).length
        · subst hlast
          rw [List.getElem?_set_self (by omega), List.getElem?_append_right (Nat.le_refl _)]
          simp
        · rw [List.getElem?_set_ne (by omega), List.getElem?_append_left (by omega)]
          exact h3 a (by omega)
      · intro j hj
        rw [List.getElem?_set_ne (by omega)]
        exact h4 j (by omega)

theorem compact_loop_prefix (t : Nat → Nat → Bool) (I : List Nat) (k : Nat)
    (hk : k ≤ I.length) (hk16 : k < 65536) :
    (for_range (compact_step t) k 0 (I, 0)).1.take (for_range (compact_step t) k 0 (I, 0)).2
      = kept t I k := by
  obtain ⟨h1, h2, h3, _⟩ := compact_loop_inv t I k hk hk16
  have hle := kept_length_le t I k
  apply List.ext_getElem?
  intro a
  by_cases ha : a < (kept t I k).length
  · rw [List.getElem?_take_of_lt (by omega)]
    exact h3 a ha
  · rw [List.getElem?_eq_none (by simp [List.length_take]; omega),
      List.getElem?_eq_none (by omega)]

namespace ColumnOperatorPredicate

variable {D : Type}

theorem evaluate_branchless_eq_compact_loop (op : ColumnOperator D) (column : Column D)
    (sel : List Nat) (sel_size : Nat) :
    evaluate_branchless op column sel sel_size
      = for_range (compact_step (step_test op column)) sel_size 0 (sel, 0) := by
  unfold evaluate_branchless compact_step step_test
  cases h : column.has_null <;> simp

end ColumnOperatorPredicate

/-! ## evaluate_branchless -/

namespace ColumnOperatorPredicate

variable {D : Type}

/-- C1: the code at a failing input. On the two-row column without nulls whose
`eval_at` is false at row 0 and true at row 1, and the index array `[1]` with
`sel_size = 1`, row 1 passes and is an input index, yet `evaluate_branchless`
returns `new_size = 0`, so index 1 is not among the first `new_size` entries:
the operator was asked about loop position 0 instead of row 1. -/
theorem evaluate_branchless_drops_passing_index :
    passes row_flag_operator (Column.plain [false, true]) 1 = true
      ∧ 1 ∈ [1]
      ∧ evaluate_branchless row_flag_operator (Column.plain [false, true]) [1] 1 = ([1], 0)
      ∧ 1 ∉ (evaluate_branchless row_flag_operator (Column.plain [false, true]) [1] 1).1.take
          (evaluate_branchless row_flag_operator (Column.plain [false, true]) [1] 1).2 := by
  decide

/-- C5: for an input index array `I` holding at least `sel_size` entries
(`sel_size` a 16-bit value), the first `new_size` entries of the array left by
`evaluate_branchless` are a subsequence of the first `sel_size` entries of `I`
in the same relative order: there is a map `f`, strictly increasing on the
output positions, sending each output position to an input position below
`sel_size` that holds the same value. -/
theorem evaluate_branchless_subsequence (op : ColumnOperator D) (column : Column D)
    (I : List Nat) (sel_size : Nat) (hlen : sel_size ≤ I.length) (h16 : sel_size < 65536) :
    ((evaluate_branchless op column I sel_size).1.take
        (evaluate_branchless op column I sel_size).2).Sublist (I.take sel_size)
      ∧ ∃ f : Nat → Nat,
          (∀ a b, a < b → b < (evaluate_branchless op column I sel_size).2 → f a < f b)
          ∧ ∀ a, a < (evaluate_branchless op column I sel_size).2 →
              f a < sel_size ∧ (evaluate_branchless op column I sel_size).1[a]? = I[f a]? := by
  have hsub : ((evaluate_branchless op column I sel_size).1.take
      (evaluate_branchless op column I sel_size).2).Sublist (I.take sel_size) := by
    rw [evaluate_branchless_eq_compact_loop, compact_loop_prefix _ I sel_size hlen h16]
    exact kept_sublist _ I sel_size hlen
  refine ⟨hsub, ?_⟩
  obtain ⟨f, hf⟩ := List.sublist_iff_exists_orderEmbedding_get?_eq.mp hsub
  refine ⟨fun a => f a, fun a b hab _ => f.lt_iff_lt.mpr hab, ?_⟩
  intro a ha
  have hlen2 : (evaluate_branchless op column I sel_size).1.length = I.length := by
    rw [evaluate_branchless_eq_compact_loop]
    exact (compact_loop_inv _ I sel_size hlen h16).2.1
  have hle2 : (evaluate_branchless op column I sel_size).2 ≤ sel_size := by
    rw [evaluate_branchless_eq_compact_loop, (compact_loop_inv _ I sel_size hlen h16).1]
    exact kept_length_le _ I sel_size
  have h := hf a
  simp only [List.get?_eq_getElem?] at h
  rw [List.getElem?_take_of_lt ha] at h
  have hin : a < (evaluate_branchless op column I sel_size).1.length := by omega
  have hfa : f a < sel_size := by
    by_contra hge
    rw [List.getElem?_eq_getElem hin,
      List.getElem?_eq_none (by simp [List.length_take]; omega)] at h
    simp at h
  refine ⟨hfa, ?_⟩
  rw [h, List.getElem?_take_of_lt hfa]

theorem evaluate_branchless_subsequence_witness :
    ((evaluate_branchless row_flag_operator (Column.plain [true, false, true]) [2, 0, 1] 3).1.take
        (evaluate_branchless row_flag_operator (Column.plain [true, false, true]) [2, 0, 1] 3).2
      ).Sublist ([2, 0, 1].take 3) :=
  (evaluate_branchless_subsequence row_flag_operator (Column.plain [true, false, true])
    [2, 0, 1] 3 (by decide) (by decide)).1

/-- C6: the code at a failing input. On the two-row column without nulls whose
`eval_at` is false at row 0 and true at row 1, a first call on `[0, 1]` with
`sel_size = 2` returns `new_size = 1` with array `[1, 1]`; a second call on
that array with `sel_size = 1` returns `new_size = 0`, not 1. -/
theorem evaluate_branchless_second_call_differs :
    evaluate_branchless row_flag_operator (Column.plain [false, true]) [0, 1] 2 = ([1, 1], 1)
      ∧ evaluate_branchless row_flag_operator (Column.plain [false, true]) [1, 1] 1
          = ([1, 1], 0) := by
  decide

/-- C7: for an index array holding at least `sel_size` entries and a 16-bit
`sel_size`, the `new_size` returned by `evaluate_branchless` (a cursor advanced
modulo 2^16) equals the number of loop steps whose test was true, counted
without any wrap-around, and is at most `sel_size`. -/
theorem evaluate_branchless_new_size (op : ColumnOperator D) (column : Column D)
    (I : List Nat) (sel_size : Nat) (hlen : sel_size ≤ I.length) (h16 : sel_size < 65536) :
    (evaluate_branchless op column I sel_size).2 = true_steps (step_test op column) I sel_size
      ∧ (evaluate_branchless op column I sel_size).2 ≤ sel_size := by
  rw [evaluate_branchless_eq_compact_loop, (compact_loop_inv _ I sel_size hlen h16).1]
  exact ⟨kept_length_eq_true_steps _ I sel_size, kept_length_le _ I sel_size⟩

theorem evaluate_branchless_new_size_witness :
    (evaluate_branchless row_flag_operator (Column.nullable [true, true, true] [0, 1, 0] true)
        [0, 1, 2] 3).2
        = true_steps
            (step_test row_flag_operator (Column.nullable [true, true, true] [0, 1, 0] true))
            [0, 1, 2] 3
      ∧ (evaluate_branchless row_flag_operator
          (Column.nullable [true, true, true] [0, 1, 0] true) [0, 1, 2] 3).2 ≤ 3 :=
  evaluate_branchless_new_size row_flag_operator
    (Column.nullable [true, true, true] [0, 1, 0] true) [0, 1, 2] 3 (by decide) (by decide)

/-- C8: on a column whose `has_null()` is true (hence nullable), for every
operator and every index array holding at least `sel_size` entries, no index
`d` whose null indicator is set is among the first `new_size` entries left by
`evaluate_branchless`. -/
theorem evaluate_branchless_excludes_nulls (op : ColumnOperator D) (column : Column D)
    (I : List Nat) (sel_size : Nat) (hn : column.has_null = true)
    (hlen : sel_size ≤ I.length) (h16 : sel_size < 65536)
    (d : Nat) (hd : column.is_null_at d = true) :
    d ∉ (evaluate_branchless op column I sel_size).1.take
      (evaluate_branchless op column I sel_size).2 := by
  rw [evaluate_branchless_eq_compact_loop, compact_loop_prefix _ I sel_size hlen h16]
  intro hmem
  obtain ⟨i, _, _, ht⟩ := kept_mem _ I sel_size d hmem
  unfold Column.is_null_at at hd
  simp only [List.getD_eq_getElem?_getD, bne_iff_ne, ne_eq] at hd
  simp [step_test, hn, hd] at ht

theorem evaluate_branchless_excludes_nulls_witness :
    1 ∉ (evaluate_branchless row_flag_operator
          (Column.nullable [true, true, true] [0, 1, 0] true) [0, 1, 2] 3).1.take
        (evaluate_branchless row_flag_operator
          (Column.nullable [true, true, true] [0, 1, 0] true) [0, 1, 2] 3).2 :=
  evaluate_branchless_excludes_nulls row_flag_operator
    (Column.nullable [true, true, true] [0, 1, 0] true) [0, 1, 2] 3 rfl (by decide) (by decide)
    1 (by decide)

/-- C9: scenario 3. Over a column without nulls and an operator whose `eval_at`
on rows 0, 1, 2, 3 is false, true, false, true, `evaluate_branchless` on the
index array `[0, 1, 2, 3]` with `sel_size = 4` returns `new_size = 2` and
leaves `[1, 3]` in the first two entries. -/
theorem evaluate_branchless_scenario3 (op : ColumnOperator D) (column : Column D)
    (hn : column.has_null = false)
    (e0 : op.eval_at column.lowcard_column 0 = false)
    (e1 : op.eval_at column.lowcard_column 1 = true)
    (e2 : op.eval_at column.lowcard_column 2 = false)
    (e3 : op.eval_at column.lowcard_column 3 = true) :
    (evaluate_branchless op column [0, 1, 2, 3] 4).2 = 2
      ∧ (evaluate_branchless op column [0, 1, 2, 3] 4).1.take 2 = [1, 3] := by
  simp [evaluate_branchless, hn, for_range, e0, e1, e2, e3]

theorem evaluate_branchless_scenario3_witness :
    (evaluate_branchless row_flag_operator (Column.plain [false, true, false, true])
        [0, 1, 2, 3] 4).2 = 2
      ∧ (evaluate_branchless row_flag_operator (Column.plain [false, true, false, true])
        [0, 1, 2, 3] 4).1.take 2 = [1, 3] :=
  evaluate_branchless_scenario3 row_flag_operator (Column.plain [false, true, false, true])
    rfl rfl rfl rfl rfl

end ColumnOperatorPredicate

/-! ## The three mask entry points as cell loops -/

namespace ColumnOperatorPredicate

variable {D : Type}

theorem evaluate_eq_cell_loop (op : ColumnOperator D) (column : Column D) (sel : List Nat)
    (a b : Nat) :
    evaluate op column sel a b
      = for_range (cell_step (fun i _ => (step_test op column i i).toNat)) (b - a) a sel := by
  unfold evaluate cell_step step_test
  cases h : column.has_null <;> simp

theorem evaluate_and_eq_cell_loop (op : ColumnOperator D) (column : Column D) (sel : List Nat)
    (a b : Nat) :
    evaluate_and op column sel a b
      = for_range (cell_step (fun i x => ((x != 0) && step_test op column i i).toNat))
          (b - a) a sel := by
  unfold evaluate_and cell_step step_test
  cases h : column.has_null <;> simp [Bool.and_assoc]

theorem evaluate_or_eq_cell_loop (op : ColumnOperator D) (column : Column D) (sel : List Nat)
    (a b : Nat) :
    evaluate_or op column sel a b
      = for_range (cell_step (fun i x => ((x != 0) || step_test op column i i).toNat))
          (b - a) a sel := by
  unfold evaluate_or cell_step step_test
  cases h : column.has_null <;> simp

theorem evaluate_at (op : ColumnOperator D) (column : Column D) (sel : List Nat)
    (a b i : Nat) (hsel : b ≤ sel.length) (h1 : a ≤ i) (h2 : i < b) :
    (evaluate op column sel a b)[i]? = some (step_test op column i i).toNat := by
  rw [evaluate_eq_cell_loop]
  exact cell_loop_inside _ _ _ _ _ h1 (by omega) (by omega)

theorem step_test_null (op : ColumnOperator D) (column : Column D) (i : Nat)
    (hn : column.has_null = true) (hi : column.is_null_at i = true) :
    step_test op column i i = false := by
  unfold Column.is_null_at at hi
  simp only [List.getD_eq_getElem?_getD, bne_iff_ne, ne_eq] at hi
  simp [step_test, hn, hi]

theorem step_test_eq_passes (op : ColumnOperator D) (column : Column D) (i : Nat)
    (hflag : column.flag_exact) :
    step_test op column i i = passes op column i := by
  unfold Column.flag_exact at hflag
  cases hn : column.has_null
  · have hz : column.null_data.getD i 0 = 0 := by
      by_cases hi : i < column.null_data.length
      · by_contra hne
        have : column.has_null = true := hflag.mpr ⟨i, hi, hne⟩
        simp [hn] at this
      · simp [List.getD_eq_getElem?_getD, List.getElem?_eq_none (Nat.le_of_not_lt hi)]
    rw [List.getD_eq_getElem?_getD] at hz
    simp [step_test, passes, Column.is_null_at, hn, hz]
  · simp [step_test, passes, Column.is_null_at, hn]

theorem toNat_ne_zero (b : Bool) : (b.toNat ≠ 0) ↔ b = true := by
  cases b <;> simp

/-! ## evaluate, evaluate_and, evaluate_or -/

/-- C2: on a column whose `has_null()` flag is exact and a range `[from, to)`
inside the column and the selection array, `evaluate` leaves `sel[i] = 1` when
row `i` passes (not null and `eval_at` true) and `sel[i] = 0` otherwise, for
every `i` of the range and whatever `sel` held before. -/
theorem evaluate_sets_passes (op : ColumnOperator D) (column : Column D) (sel : List Nat)
    (from_ to_ : Nat) (hflag : column.flag_exact) (_hcol : column.covers to_)
    (hsel : to_ ≤ sel.length) (i : Nat) (h1 : from_ ≤ i) (h2 : i < to_) :
    (evaluate op column sel from_ to_)[i]? = some (if passes op column i = true then 1 else 0) := by
  rw [evaluate_at op column sel from_ to_ i hsel h1 h2, step_test_eq_passes op column i hflag]
  cases passes op column i <;> rfl

theorem evaluate_sets_passes_witness :
    (Column.nullable [true, true, true] [0, 1, 0] true).flag_exact
      ∧ (Column.nullable [true, true, true] [0, 1, 0] true).covers 3
      ∧ (evaluate row_flag_operator (Column.nullable [true, true, true] [0, 1, 0] true)
          [7, 7, 7] 0 3)[1]?
        = some (if passes row_flag_operator (Column.nullable [true, true, true] [0, 1, 0] true) 1
            = true then 1 else 0) :=
  have hflag : (Column.nullable [true, true, true] [0, 1, 0] true).flag_exact :=
    ⟨fun _ => ⟨1, by decide, by decide⟩, fun _ => rfl⟩
  have hcol : (Column.nullable [true, true, true] [0, 1, 0] true).covers 3 := by
    show 3 ≤ [0, 1, 0].length
    decide
  ⟨hflag, hcol,
    evaluate_sets_passes row_flag_operator _ [7, 7, 7] 0 3 hflag hcol (by decide) 1
      (by decide) (by decide)⟩

/-- C3: for a range `[from, to)` inside the selection arrays, `evaluate_and`
started from `S` leaves at every `i` of the range the logical AND of
`S[i] != 0` with the value a fresh `evaluate` (started from any array `S'`)
writes at `i`. -/
theorem evaluate_and_is_and (op : ColumnOperator D) (column : Column D) (S S' : List Nat)
    (from_ to_ : Nat) (hS : to_ ≤ S.length) (hS' : to_ ≤ S'.length)
    (i : Nat) (h1 : from_ ≤ i) (h2 : i < to_) :
    (evaluate_and op column S from_ to_)[i]?
      = some (if S.getD i 0 ≠ 0 ∧ (evaluate op column S' from_ to_).getD i 0 ≠ 0
          then 1 else 0) := by
  rw [List.getD_eq_getElem?_getD (evaluate op column S' from_ to_),
    evaluate_at op column S' from_ to_ i hS' h1 h2, evaluate_and_eq_cell_loop,
    cell_loop_inside _ _ _ _ _ h1 (by omega) (by omega)]
  simp only [Option.getD_some, toNat_ne_zero]
  generalize S.getD i 0 = v
  cases step_test op column i i <;> by_cases hz : v = 0 <;> simp [hz]

theorem evaluate_and_is_and_witness :
    (evaluate_and row_flag_operator (Column.nullable [true, true, true] [0, 1, 0] true)
        [1, 1, 0] 0 3)[0]?
      = some (if [1, 1, 0].getD 0 0 ≠ 0
            ∧ (evaluate row_flag_operator (Column.nullable [true, true, true] [0, 1, 0] true)
                [9, 9, 9] 0 3).getD 0 0 ≠ 0
          then 1 else 0) :=
  evaluate_and_is_and row_flag_operator _ [1, 1, 0] [9, 9, 9] 0 3 (by decide) (by decide) 0
    (by decide) (by decide)

/-- C4, the claim as stated fails: on the one-row nullable column whose null
indicator is set while `has_null()` answers false, with an operator whose
`eval_at` is true on row 0, `evaluate_or` over `[0, 1)` started from `sel = [0]`
leaves `sel = [1]`: the loop taken when `has_null()` is false does not read the
null indicators, so the null row turns a prior 0 into 1. -/
theorem evaluate_or_null_row_stale_flag :
    (Column.nullable [true] [1] false).is_null_at 0 = true
      ∧ [0].getD 0 0 = 0
      ∧ evaluate_or row_flag_operator (Column.nullable [true] [1] false) [0] 0 1 = [1] := by
  decide

/-- C4, amended: for a range `[from, to)` inside the selection arrays,
`evaluate_or` started from `S` leaves at every `i` of the range the logical OR
of `S[i] != 0` with the value a fresh `evaluate` (started from any array `S'`)
writes at `i`, for every column. In particular a prior non-zero entry stays 1,
and at a null row of a column whose `has_null()` flag is exact a prior 0
stays 0. -/
theorem evaluate_or_is_or (op : ColumnOperator D) (column : Column D) (S S' : List Nat)
    (from_ to_ : Nat) (hS : to_ ≤ S.length) (hS' : to_ ≤ S'.length)
    (i : Nat) (h1 : from_ ≤ i) (h2 : i < to_) :
    (evaluate_or op column S from_ to_)[i]?
        = some (if S.getD i 0 ≠ 0 ∨ (evaluate op column S' from_ to_).getD i 0 ≠ 0
            then 1 else 0)
      ∧ (S.getD i 0 ≠ 0 → (evaluate_or op column S from_ to_)[i]? = some 1)
      ∧ (column.flag_exact → column.is_null_at i = true → S.getD i 0 = 0 →
          (evaluate_or op column S from_ to_)[i]? = some 0) := by
  have hor : (evaluate_or op column S from_ to_)[i]?
      = some ((S.getD i 0 != 0) || step_test op column i i).toNat := by
    rw [evaluate_or_eq_cell_loop, cell_loop_inside _ _ _ _ _ h1 (by omega) (by omega)]
  refine ⟨?_, ?_, ?_⟩
  · rw [List.getD_eq_getElem?_getD (evaluate op column S' from_ to_),
      evaluate_at op column S' from_ to_ i hS' h1 h2, hor]
    simp only [Option.getD_some, toNat_ne_zero]
    generalize S.getD i 0 = v
    cases step_test op column i i <;> by_cases hz : v = 0 <;> simp [hz]
  · intro hz
    rw [hor]
    generalize S.getD i 0 = v at hz
    simp [hz]
  · intro hflag hnull hz
    have hn : column.has_null = true := by
      unfold Column.is_null_at at hnull
      by_cases hi : i < column.null_data.length
      · exact hflag.mpr ⟨i, hi, by simpa using hnull⟩
      · simp [List.getD_eq_getElem?_getD, List.getElem?_eq_none (Nat.le_of_not_lt hi)] at hnull
    rw [hor, step_test_null op column i hn hnull, hz]
    rfl

theorem evaluate_or_is_or_witness :
    (evaluate_or row_flag_operator (Column.nullable [true, true, true] [0, 1, 0] true)
        [0, 0, 0] 0 3)[1]? = some 0 :=
  (evaluate_or_is_or row_flag_operator (Column.nullable [true, true, true] [0, 1, 0] true)
      [0, 0, 0] [9, 9, 9] 0 3 (by decide) (by decide) 1 (by decide) (by decide)).2.2
    ⟨fun _ => ⟨1, by decide, by decide⟩, fun _ => rfl⟩ (by decide) (by decide)

/-- C10: scenario 2. `evaluate` over the full range `[0, 4)` of the nullable
column `[5, null, 15, 20]`, whatever value is stored under the null row, with
the operator `value >= 10`, leaves `sel = [0, 0, 1, 1]` whatever the four
cells of `sel` held before. -/
theorem evaluate_scenario2 (x : Int) (sel : List Nat) (hsel : sel.length = 4) :
    evaluate (ge_operator 10) (scenario2_column x) sel 0 4 = [0, 0, 1, 1] := by
  match sel, hsel with
  | [a, b, c, d], _ =>
    simp [evaluate, scenario2_column, ge_operator, Column.has_null, Column.null_data,
      Column.lowcard_column, for_range]

theorem evaluate_scenario2_witness :
    evaluate (ge_operator 10) (scenario2_column 99) [1, 1, 0, 0] 0 4 = [0, 0, 1, 1] :=
  evaluate_scenario2 99 [1, 1, 0, 0] rfl

end ColumnOperatorPredicate

/-! ## Frame of the evaluation entry points -/

namespace ColumnOperatorPredicate

variable {D : Type}

/-- C19: `evaluate`, `evaluate_and` and `evaluate_or` leave every `sel[j]` with
`j` outside `[from, to)` unchanged, so the whole array is unchanged when
`from >= to`; `evaluate_branchless` on an array holding at least `sel_size`
entries (`sel_size` a 16-bit value) leaves every entry at index `>= sel_size`
unchanged, and with `sel_size = 0` it returns 0 and the array as it was. -/
theorem evaluate_frame (op : ColumnOperator D) (column : Column D) (sel : List Nat)
    (from_ to_ sel_size : Nat) (hlen : sel_size ≤ sel.length) (h16 : sel_size < 65536) :
    (∀ j, j < from_ ∨ to_ ≤ j →
        (evaluate op column sel from_ to_)[j]? = sel[j]?
          ∧ (evaluate_and op column sel from_ to_)[j]? = sel[j]?
          ∧ (evaluate_or op column sel from_ to_)[j]? = sel[j]?)
      ∧ (to_ ≤ from_ →
          evaluate op column sel from_ to_ = sel
            ∧ evaluate_and op column sel from_ to_ = sel
            ∧ evaluate_or op column sel from_ to_ = sel)
      ∧ (∀ j, sel_size ≤ j → (evaluate_branchless op column sel sel_size).1[j]? = sel[j]?)
      ∧ evaluate_branchless op column sel 0 = (sel, 0) := by
  refine ⟨?_, ?_, ?_, ?_⟩
  · intro j hj
    rw [evaluate_eq_cell_loop, evaluate_and_eq_cell_loop, evaluate_or_eq_cell_loop]
    exact ⟨cell_loop_outside _ _ _ _ _ (by omega), cell_loop_outside _ _ _ _ _ (by omega),
      cell_loop_outside _ _ _ _ _ (by omega)⟩
  · intro hle
    rw [evaluate_eq_cell_loop, evaluate_and_eq_cell_loop, evaluate_or_eq_cell_loop,
      Nat.sub_eq_zero_of_le hle]
    exact ⟨rfl, rfl, rfl⟩
  · intro j hj
    rw [evaluate_branchless_eq_compact_loop]
    exact (compact_loop_inv _ sel sel_size hlen h16).2.2.2 j hj
  · rw [evaluate_branchless_eq_compact_loop]
    rfl

theorem evaluate_frame_witness :
    (evaluate_branchless row_flag_operator (Column.plain [false, true, true]) [2, 1, 0, 5] 3).1[3]?
      = [2, 1, 0, 5][3]? :=
  (evaluate_frame row_flag_operator (Column.plain [false, true, true]) [2, 1, 0, 5] 1 3 3
    (by decide) (by decide)).2.2.1 3 (by decide)

/-! ## Index pushdown -/

/-- C11, the claim as stated fails: with debug checks compiled in, calling
`bloom_filter` on a predicate whose operator does not support bloom filters
does not return true; the call is aborted by
`DCHECK(support_bloom_filter())`. -/
theorem bloom_filter_unsupported_dcheck_aborts :
    support_bloom_filter no_bloom_operator = false
      ∧ bloom_filter true no_bloom_operator () ≠ some true := by
  decide

/-- C11, amended: `zone_map_filter(detail)` returns false only when the
operator's `zone_map_filter(detail)` does; `bloom_filter(bf)` returns false
only when the operator supports bloom filters and its `bloom_filter(bf)`
returns false; for an operator that does not support bloom filters,
`bloom_filter` returns true for every `bf` where `DCHECK` is compiled out and
is aborted by the `DCHECK` where it is compiled in, so it never answers
false. -/
theorem pushdown_no_false_negative {Z B : Type} (dcheck_is_on : Bool)
    (op : PushdownOperator Z B) (detail : Z) (bf : B) :
    (zone_map_filter op detail = false → op.zone_map_filter detail = false)
      ∧ (bloom_filter dcheck_is_on op bf = some false →
          op.support_bloom_filter = true ∧ op.bloom_filter bf = false)
      ∧ (op.support_bloom_filter = false →
          bloom_filter false op bf = some true ∧ bloom_filter true op bf = none) := by
  refine ⟨fun h => h, ?_, ?_⟩
  · intro h
    cases hs : op.support_bloom_filter <;> cases dcheck_is_on <;>
      simp_all [bloom_filter, DCHECK, support_bloom_filter]
  · intro hs
    simp [bloom_filter, DCHECK, support_bloom_filter, hs]

theorem pushdown_no_false_negative_witness :
    bloom_operator.support_bloom_filter = true ∧ bloom_operator.bloom_filter () = false :=
  (pushdown_no_false_negative true bloom_operator () ()).2.1 (by decide)

end ColumnOperatorPredicate

end starrocks.vectorized

/-! ## CurrentThread: the operations in closed form -/

namespace starrocks

namespace CurrentThread

theorem mem_tracker_eq (env : ExecEnv) (s : ThreadState) (t : Nat)
    (h : (mem_tracker env s).1 = some t) :
    mem_tracker env s = (some t, { s with tls_mem_tracker := some t }) := by
  obtain ⟨tls, exc, cache, calls⟩ := s
  cases tls <;> simp_all [mem_tracker]

theorem mem_tracker_none (env : ExecEnv) (s : ThreadState)
    (h : (mem_tracker env s).1 = none) :
    mem_tracker env s = (none, s) := by
  obtain ⟨tls, exc, cache, calls⟩ := s
  cases tls <;> simp_all [mem_tracker]

theorem mem_tracker_idem (env : ExecEnv) (s : ThreadState) :
    (mem_tracker env (mem_tracker env s).2).1 = (mem_tracker env s).1 := by
  obtain ⟨tls, exc, cache, calls⟩ := s
  cases tls <;> cases hp : env.process_mem_tracker <;> simp [mem_tracker, hp]

theorem commit_eq (env : ExecEnv) (s : ThreadState) (t : Nat)
    (h : (mem_tracker env s).1 = some t) :
    commit env s =
      if s._cache_size = 0 then { s with tls_mem_tracker := some t }
      else { s with tls_mem_tracker := some t, _cache_size := 0,
                    calls := s.calls ++ [TrackerCall.consume t s._cache_size] } := by
  unfold commit
  rw [mem_tracker_eq env s t h]
  by_cases hc : s._cache_size = 0 <;> simp [hc]

theorem commit_none (env : ExecEnv) (s : ThreadState)
    (h : (mem_tracker env s).1 = none) : commit env s = s := by
  unfold commit
  rw [mem_tracker_none env s h]

theorem mem_consume_eq (env : ExecEnv) (size : Int) (s : ThreadState) (t : Nat)
    (h : (mem_tracker env s).1 = some t) :
    mem_consume env size s =
      if BATCH_SIZE ≤ s._cache_size + size then
        { s with tls_mem_tracker := some t, _cache_size := 0,
                 calls := s.calls ++ [TrackerCall.consume t (s._cache_size + size)] }
      else { s with tls_mem_tracker := some t, _cache_size := s._cache_size + size } := by
  unfold mem_consume
  rw [mem_tracker_eq env s t h]

theorem mem_release_eq (env : ExecEnv) (size : Int) (s : ThreadState) (t : Nat)
    (h : (mem_tracker env s).1 = some t) :
    mem_release env size s =
      if s._cache_size - size ≤ -BATCH_SIZE then
        { s with tls_mem_tracker := some t, _cache_size := 0,
                 calls := s.calls ++ [TrackerCall.release t (-(s._cache_size - size))] }
      else { s with tls_mem_tracker := some t, _cache_size := s._cache_size - size } := by
  unfold mem_release
  rw [mem_tracker_eq env s t h]

theorem try_mem_consume_eq (env : ExecEnv) (size : Int) (s : ThreadState) (t : Nat)
    (h : (mem_tracker env s).1 = some t) :
    try_mem_consume env size s =
      if BATCH_SIZE ≤ s._cache_size + size then
        match env.try_consume s.calls t (s._cache_size + size) with
        | none =>
          (true, { s with tls_mem_tracker := some t, _cache_size := 0,
                          calls := s.calls
                            ++ [TrackerCall.try_consume t (s._cache_size + size) none] })
        | some l =>
          (false, { s with tls_mem_tracker := some t, tls_exceed_mem_tracker := some l,
                           calls := s.calls
                             ++ [TrackerCall.try_consume t (s._cache_size + size) (some l)] })
      else (true, { s with tls_mem_tracker := some t, _cache_size := s._cache_size + size }) := by
  unfold try_mem_consume
  rw [mem_tracker_eq env s t h]
  by_cases hc : BATCH_SIZE ≤ s._cache_size + size
  · cases hl : env.try_consume s.calls t (s._cache_size + size) <;> simp [hc, hl]
  · simp [hc]

theorem try_mem_consume_none (env : ExecEnv) (size : Int) (s : ThreadState)
    (h : (mem_tracker env s).1 = none) :
    try_mem_consume env size s = (true, { s with _cache_size := s._cache_size + size }) := by
  unfold try_mem_consume
  rw [mem_tracker_none env s h]

end CurrentThread

/-! ## CurrentThread: what one call and a sequence of calls preserve -/

theorem charged_append_single (k : Nat) (calls : List TrackerCall) (e : TrackerCall) :
    charged k (calls ++ [e]) = charged k calls + e.charge k := by
  simp [charged]

theorem reports_of_tls (env : ExecEnv) (s : ThreadState) (t : Nat)
    (h : s.tls_mem_tracker = some t) : (CurrentThread.mem_tracker env s).1 = some t := by
  simp [CurrentThread.mem_tracker, h]

theorem step_reports (env : ExecEnv) (c : Call) (s : ThreadState) :
    (CurrentThread.mem_tracker env (c.step env s)).1 = (CurrentThread.mem_tracker env s).1 := by
  cases h : (CurrentThread.mem_tracker env s).1 with
  | none =>
    have hs : ∀ x : Int,
        (CurrentThread.mem_tracker env { s with _cache_size := x }).1 = none := by
      intro x
      obtain ⟨tls, exc, cache, calls⟩ := s
      cases tls <;> simp_all [CurrentThread.mem_tracker]
    cases c with
    | mem_consume n =>
      simp only [Call.step, CurrentThread.mem_consume, CurrentThread.mem_tracker_none env s h]
      exact hs _
    | mem_release n =>
      simp only [Call.step, CurrentThread.mem_release, CurrentThread.mem_tracker_none env s h]
      exact hs _
    | try_mem_consume n =>
      simp only [Call.step, CurrentThread.try_mem_consume_none env n s h]
      exact hs _
    | commit =>
      simp only [Call.step, CurrentThread.commit_none env s h]
      exact h
  | some t =>
    cases c with
    | mem_consume n =>
      simp only [Call.step, CurrentThread.mem_consume_eq env n s t h]
      split <;> exact reports_of_tls env _ t rfl
    | mem_release n =>
      simp only [Call.step, CurrentThread.mem_release_eq env n s t h]
      split <;> exact reports_of_tls env _ t rfl
    | try_mem_consume n =>
      simp only [Call.step, CurrentThread.try_mem_consume_eq env n s t h]
      split
      · split <;> exact reports_of_tls env _ t rfl
      · exact reports_of_tls env _ t rfl
    | commit =>
      simp only [Call.step, CurrentThread.commit_eq env s t h]
      split <;> exact reports_of_tls env _ t rfl

theorem step_conserves (env : ExecEnv) (c : Call) (s : ThreadState) (t : Nat)
    (h : (CurrentThread.mem_tracker env s).1 = some t) :
    charged t (c.step env s).calls + (c.step env s)._cache_size
        = charged t s.calls + s._cache_size + c.requested env s
      ∧ ∀ k, k ≠ t → charged k (c.step env s).calls = charged k s.calls := by
  cases c with
  | mem_consume n =>
    simp only [Call.step, Call.requested, CurrentThread.mem_consume_eq env n s t h]
    split
    · refine ⟨?_, fun k hk => ?_⟩
      · simp only [charged_append_single, TrackerCall.charge, if_true]
        omega
      · simp [charged_append_single, TrackerCall.charge, hk.symm]
    · exact ⟨by simp only []; omega, fun _ _ => rfl⟩
  | mem_release n =>
    simp only [Call.step, Call.requested, CurrentThread.mem_release_eq env n s t h]
    split
    · refine ⟨?_, fun k hk => ?_⟩
      · simp only [charged_append_single, TrackerCall.charge, if_true]
        omega
      · simp [charged_append_single, TrackerCall.charge, hk.symm]
    · exact ⟨by simp only []; omega, fun _ _ => rfl⟩
  | try_mem_consume n =>
    simp only [Call.step, Call.requested, CurrentThread.try_mem_consume_eq env n s t h]
    split
    · split
      · refine ⟨?_, fun k hk => ?_⟩
        · simp only [charged_append_single, TrackerCall.charge, if_true]
          omega
        · simp [charged_append_single, TrackerCall.charge, hk.symm]
      · refine ⟨?_, fun k hk => ?_⟩
        · simp [charged_append_single, TrackerCall.charge]
        · simp [charged_append_single, TrackerCall.charge]
    · exact ⟨by simp only [if_true]; omega, fun _ _ => rfl⟩
  | commit =>
    simp only [Call.step, Call.requested, CurrentThread.commit_eq env s t h]
    split
    · exact ⟨by simp only []; omega, fun _ _ => rfl⟩
    · refine ⟨?_, fun k hk => ?_⟩
      · simp only [charged_append_single, TrackerCall.charge, if_true]
      · simp [charged_append_single, TrackerCall.charge, hk.symm]

theorem step_bounded (env : ExecEnv) (c : Call) (s : ThreadState) (t : Nat)
    (h : (CurrentThread.mem_tracker env s).1 = some t) (hsize : 0 ≤ c.size)
    (hlo : -CurrentThread.BATCH_SIZE < s._cache_size)
    (hhi : s._cache_size < CurrentThread.BATCH_SIZE) :
    -CurrentThread.BATCH_SIZE < (c.step env s)._cache_size
      ∧ (c.step env s)._cache_size < CurrentThread.BATCH_SIZE := by
  have hB : (0 : Int) < CurrentThread.BATCH_SIZE := by decide
  cases c with
  | mem_consume n =>
    simp only [Call.size] at hsize
    simp only [Call.step, CurrentThread.mem_consume_eq env n s t h]
    split
    · exact ⟨by simp only []; omega, by simp only []; omega⟩
    · exact ⟨by simp only []; omega, by simp only []; omega⟩
  | mem_release n =>
    simp only [Call.size] at hsize
    simp only [Call.step, CurrentThread.mem_release_eq env n s t h]
    split
    · exact ⟨by simp only []; omega, by simp only []; omega⟩
    · exact ⟨by simp only []; omega, by simp only []; omega⟩
  | try_mem_consume n =>
    simp only [Call.size] at hsize
    simp only [Call.step, CurrentThread.try_mem_consume_eq env n s t h]
    split
    · split
      · exact ⟨by simp only []; omega, by simp only []; omega⟩
      · exact ⟨by simp only []; omega, by simp only []; omega⟩
    · exact ⟨by simp only []; omega, by simp only []; omega⟩
  | commit =>
    simp only [Call.step, CurrentThread.commit_eq env s t h]
    split
    · exact ⟨by simp only []; omega, by simp only []; omega⟩
    · exact ⟨by simp only []; omega, by simp only []; omega⟩

theorem run_calls_reports (env : ExecEnv) (cs : List Call) (s : ThreadState) :
    (CurrentThread.mem_tracker env (run_calls env cs s)).1
      = (CurrentThread.mem_tracker env s).1 := by
  induction cs generalizing s with
  | nil => rfl
  | cons c cs ih => rw [run_calls, ih, step_reports]

theorem run_calls_conserves (env : ExecEnv) (cs : List Call) (s : ThreadState) (t : Nat)
    (h : (CurrentThread.mem_tracker env s).1 = some t) :
    charged t (run_calls env cs s).calls + (run_calls env cs s)._cache_size
        = charged t s.calls + s._cache_size + requested_total env cs s
      ∧ ∀ k, k ≠ t → charged k (run_calls env cs s).calls = charged k s.calls := by
  induction cs generalizing s with
  | nil => simp [run_calls, requested_total]
  | cons c cs ih =>
    have h1 := step_conserves env c s t h
    have h2 := ih (c.step env s) (by rw [step_reports]; exact h)
    simp only [run_calls, requested_total]
    refine ⟨by omega, fun k hk => ?_⟩
    rw [h2.2 k hk, h1.2 k hk]

theorem run_calls_bounded (env : ExecEnv) (cs : List Call) (s : ThreadState) (t : Nat)
    (h : (CurrentThread.mem_tracker env s).1 = some t) (hsize : ∀ c ∈ cs, 0 ≤ c.size)
    (hlo : -CurrentThread.BATCH_SIZE < s._cache_size)
    (hhi : s._cache_size < CurrentThread.BATCH_SIZE) :
    -CurrentThread.BATCH_SIZE < (run_calls env cs s)._cache_size
      ∧ (run_calls env cs s)._cache_size < CurrentThread.BATCH_SIZE := by
  induction cs generalizing s with
  | nil => exact ⟨hlo, hhi⟩
  | cons c cs ih =>
    have hb := step_bounded env c s t h (hsize c (List.mem_cons_self _ _)) hlo hhi
    exact ih (c.step env s) (by rw [step_reports]; exact h)
      (fun c' hc' => hsize c' (List.mem_cons_of_mem _ hc')) hb.1 hb.2

/-! ## CurrentThread: switching trackers -/

theorem reports_none_process (env : ExecEnv) (s : ThreadState)
    (h : (CurrentThread.mem_tracker env s).1 = none) :
    s.tls_mem_tracker = none ∧ env.process_mem_tracker = none := by
  obtain ⟨tls, exc, cache, calls⟩ := s
  cases tls <;> simp_all [CurrentThread.mem_tracker]

theorem set_mem_tracker_fst (env : ExecEnv) (m : Option Nat) (s : ThreadState) :
    (CurrentThread.set_mem_tracker env m s).1 = (CurrentThread.mem_tracker env s).1 := by
  cases h : (CurrentThread.mem_tracker env s).1 with
  | none =>
    simp only [CurrentThread.set_mem_tracker, CurrentThread.commit_none env s h]
    exact (reports_none_process env s h).1
  | some t =>
    simp only [CurrentThread.set_mem_tracker, CurrentThread.commit_eq env s t h]
    split <;> rfl

theorem reports_after_set (env : ExecEnv) (m : Option Nat) (s : ThreadState) :
    (CurrentThread.mem_tracker env (CurrentThread.set_mem_tracker env m s).2).1
      = match m with
        | none => env.process_mem_tracker
        | some x => some x := by
  cases m <;> simp [CurrentThread.set_mem_tracker, CurrentThread.mem_tracker]

theorem set_mem_tracker_effect (env : ExecEnv) (old : Nat) (m : Option Nat) (s : ThreadState)
    (hold : (CurrentThread.mem_tracker env s).1 = some old) :
    (CurrentThread.set_mem_tracker env m s).2.calls
        = s.calls ++ (if s._cache_size = 0 then [] else [TrackerCall.consume old s._cache_size])
      ∧ (CurrentThread.set_mem_tracker env m s).2._cache_size = 0
      ∧ (CurrentThread.set_mem_tracker env m s).2.tls_mem_tracker = m
      ∧ charged old (CurrentThread.set_mem_tracker env m s).2.calls
          = charged old s.calls + s._cache_size
      ∧ ∀ k, k ≠ old →
          charged k (CurrentThread.set_mem_tracker env m s).2.calls = charged k s.calls := by
  simp only [CurrentThread.set_mem_tracker, CurrentThread.commit_eq env s old hold]
  by_cases hc : s._cache_size = 0
  · simp [hc]
  · simp only [hc, if_false, charged_append_single, TrackerCall.charge, if_true]
    refine ⟨trivial, trivial, trivial, trivial, fun k hk => ?_⟩
    simp [hk.symm]

theorem block_reports (env : ExecEnv) (b : Block) (s : ThreadState) :
    (CurrentThread.mem_tracker env (b.run env s)).1 = (CurrentThread.mem_tracker env s).1 := by
  induction b generalizing s with
  | done => rfl
  | call c rest ih => rw [Block.run, ih, step_reports]
  | in_scope t body rest _ ih =>
    rw [Block.run, ih]
    simp only [CurrentThreadMemTrackerSetter.destroy, CurrentThreadMemTrackerSetter.construct,
      reports_after_set, set_mem_tracker_fst]
    cases h : (CurrentThread.mem_tracker env s).1 with
    | none => exact (reports_none_process env s h).2
    | some x => rfl

namespace CurrentThread

/-- C12: `set_mem_tracker(t)` returns the tracker `mem_tracker()` reported just
before the call and, `t` being non-null, makes `mem_tracker()` report `t`
afterwards. Consequently a scope that constructs a
`CurrentThreadMemTrackerSetter`, runs any body and destroys the setter leaves
the tracker reported by `mem_tracker()` as it was before the scope, and so does
every block of calls and scopes nested to any depth. -/
theorem set_mem_tracker_returns_prev_and_scopes_restore (env : ExecEnv) (s : ThreadState)
    (t : Nat) (u : Option Nat) (body b : Block) :
    (set_mem_tracker env (some t) s).1 = (mem_tracker env s).1
      ∧ (mem_tracker env (set_mem_tracker env (some t) s).2).1 = some t
      ∧ (mem_tracker env ((Block.in_scope u body Block.done).run env s)).1
          = (mem_tracker env s).1
      ∧ (mem_tracker env (b.run env s)).1 = (mem_tracker env s).1 :=
  ⟨set_mem_tracker_fst env (some t) s, reports_after_set env (some t) s,
    block_reports env _ s, block_reports env b s⟩

/-- C13: with a non-null current tracker `t` and local cache `c`,
`mem_consume(size)` makes no call on any tracker and leaves the cache at
`c + size` when `c + size < 2 MiB`; when `c + size >= 2 MiB` it makes exactly
one call, `t->consume(c + size)`, and resets the cache to 0. The threshold
`BATCH_SIZE` is `2 * 1024 * 1024`. -/
theorem mem_consume_batches (env : ExecEnv) (s : ThreadState) (t : Nat) (size : Int)
    (ht : (mem_tracker env s).1 = some t) :
    BATCH_SIZE = 2 * 1024 * 1024
      ∧ (s._cache_size + size < 2 * 1024 * 1024 →
          (mem_consume env size s).calls = s.calls
            ∧ (mem_consume env size s)._cache_size = s._cache_size + size)
      ∧ (2 * 1024 * 1024 ≤ s._cache_size + size →
          (mem_consume env size s).calls
              = s.calls ++ [TrackerCall.consume t (s._cache_size + size)]
            ∧ (mem_consume env size s)._cache_size = 0) := by
  have hB : BATCH_SIZE = 2 * 1024 * 1024 := rfl
  rw [mem_consume_eq env size s t ht, hB]
  refine ⟨rfl, fun hlt => ?_, fun hge => ?_⟩
  · rw [if_neg (by omega)]
    exact ⟨rfl, rfl⟩
  · rw [if_pos hge]
    exact ⟨rfl, rfl⟩

theorem mem_consume_batches_witness :
    (mem_consume accepting_env 2097152 (thread_on 1 3)).calls
        = (thread_on 1 3).calls ++ [TrackerCall.consume 1 ((thread_on 1 3)._cache_size + 2097152)]
      ∧ (mem_consume accepting_env 2097152 (thread_on 1 3))._cache_size = 0 :=
  (mem_consume_batches accepting_env (thread_on 1 3) 1 2097152 rfl).2.2 (by decide)

/-- C14: with a non-null current tracker `t`, starting from cache 0 and nothing
reported, after every finite sequence of `mem_consume`, `mem_release`, `commit`
and `try_mem_consume` calls the net amount reported to `t` plus the local cache
equals the sum of the sizes passed to `mem_consume` and to the
`try_mem_consume` calls that returned true, minus the sum of the sizes passed
to `mem_release`. -/
theorem accounting_conservation (env : ExecEnv) (s : ThreadState) (t : Nat) (cs : List Call)
    (ht : (mem_tracker env s).1 = some t) (h0 : s._cache_size = 0) (hcalls : s.calls = []) :
    charged t (run_calls env cs s).calls + (run_calls env cs s)._cache_size
      = requested_total env cs s := by
  have h := (run_calls_conserves env cs s t ht).1
  rw [h0, hcalls] at h
  simpa [charged] using h

theorem accounting_conservation_witness :
    charged 1 (run_calls accepting_env
          [Call.mem_consume 5, Call.try_mem_consume 2097152, Call.mem_release 3, Call.commit]
          (thread_on 1 0)).calls
        + (run_calls accepting_env
          [Call.mem_consume 5, Call.try_mem_consume 2097152, Call.mem_release 3, Call.commit]
          (thread_on 1 0))._cache_size
      = requested_total accepting_env
          [Call.mem_consume 5, Call.try_mem_consume 2097152, Call.mem_release 3, Call.commit]
          (thread_on 1 0) :=
  accounting_conservation accepting_env (thread_on 1 0) 1 _ rfl rfl rfl

/-- C15: if `try_mem_consume(size)` returns false then the local cache equals
its value before the call and no tracker is charged anything (the only call
made is a rejected `try_consume`, which charges nothing); and a false return
happens only when `cache + size >= 2 MiB`, the current tracker is non-null and
its `try_consume(cache + size)` returned a limit tracker. -/
theorem try_mem_consume_failure_atomic (env : ExecEnv) (s : ThreadState) (size : Int)
    (hf : (try_mem_consume env size s).1 = false) :
    (try_mem_consume env size s).2._cache_size = s._cache_size
      ∧ (∀ k, charged k (try_mem_consume env size s).2.calls = charged k s.calls)
      ∧ 2 * 1024 * 1024 ≤ s._cache_size + size
      ∧ ∃ t l, (mem_tracker env s).1 = some t
          ∧ env.try_consume s.calls t (s._cache_size + size) = some l
          ∧ (try_mem_consume env size s).2.calls
              = s.calls ++ [TrackerCall.try_consume t (s._cache_size + size) (some l)] := by
  have hB : BATCH_SIZE = 2 * 1024 * 1024 := rfl
  cases ht : (mem_tracker env s).1 with
  | none =>
    rw [try_mem_consume_none env size s ht] at hf
    simp at hf
  | some t =>
    rw [try_mem_consume_eq env size s t ht] at hf ⊢
    by_cases hc : BATCH_SIZE ≤ s._cache_size + size
    · rw [if_pos hc] at hf ⊢
      cases hl : env.try_consume s.calls t (s._cache_size + size) with
      | none =>
        rw [hl] at hf
        simp at hf
      | some l =>
        refine ⟨rfl, fun k => ?_, hB ▸ hc, t, l, rfl, hl, rfl⟩
        simp only [charged_append_single, TrackerCall.charge, Int.add_zero]
    · rw [if_neg hc] at hf
      simp at hf

theorem try_mem_consume_failure_atomic_witness :
    (try_mem_consume rejecting_env 2097152 (thread_on 1 3)).2._cache_size
      = (thread_on 1 3)._cache_size :=
  (try_mem_consume_failure_atomic rejecting_env (thread_on 1 3) 2097152 (by decide)).1

/-- C16: the code at a failing input. With current tracker 1 and an environment
in which `try_consume` is rejected by the limit of tracker 7,
`try_mem_consume_without_cache(5)` returns false and leaves
`tls_exceed_mem_tracker` null, whereas `try_mem_consume` on a rejected flush
stores the limit tracker there. -/
theorem try_mem_consume_without_cache_forgets_limit_tracker :
    rejecting_env.try_consume [] 1 5 = some 7
      ∧ (try_mem_consume_without_cache rejecting_env 5 (thread_on 1 0)).1 = false
      ∧ (try_mem_consume_without_cache rejecting_env 5 (thread_on 1 0)).2.tls_exceed_mem_tracker
          = none
      ∧ (try_mem_consume rejecting_env 2097152 (thread_on 1 0)).1 = false
      ∧ (try_mem_consume rejecting_env 2097152 (thread_on 1 0)).2.tls_exceed_mem_tracker
          = some 7 := by
  decide

/-- C17: with current tracker `old` (non-null) and cache `c`,
`set_mem_tracker(t)` makes exactly one call, `old->consume(c)`, or no call at
all when `c = 0`; it leaves the cache at 0, so `old` is charged exactly `c` and
every other tracker, the new one included when it differs from `old`, is
charged nothing. Hence in a scope of a `CurrentThreadMemTrackerSetter(u)`
whose body is any sequence of cached calls, the bytes accounted inside the
scope are all charged to `u` by the time the setter is destroyed, the cache is
then 0, and no other tracker, the restored one included, is charged any of
them. -/
theorem set_mem_tracker_flushes_to_current (env : ExecEnv) (s : ThreadState) (old : Nat)
    (t : Option Nat) (u : Nat) (cs : List Call)
    (hold : (mem_tracker env s).1 = some old) :
    (set_mem_tracker env t s).2.calls
        = s.calls ++ (if s._cache_size = 0 then [] else [TrackerCall.consume old s._cache_size])
      ∧ (set_mem_tracker env t s).2._cache_size = 0
      ∧ charged old (set_mem_tracker env t s).2.calls = charged old s.calls + s._cache_size
      ∧ (∀ k, k ≠ old → charged k (set_mem_tracker env t s).2.calls = charged k s.calls)
      ∧ charged u (CurrentThreadMemTrackerSetter.destroy env
            (CurrentThreadMemTrackerSetter.construct env (some u) s).1
            (run_calls env cs (CurrentThreadMemTrackerSetter.construct env (some u) s).2)).calls
          = charged u (CurrentThreadMemTrackerSetter.construct env (some u) s).2.calls
            + requested_total env cs (CurrentThreadMemTrackerSetter.construct env (some u) s).2
      ∧ (∀ k, k ≠ u →
          charged k (CurrentThreadMemTrackerSetter.destroy env
            (CurrentThreadMemTrackerSetter.construct env (some u) s).1
            (run_calls env cs (CurrentThreadMemTrackerSetter.construct env (some u) s).2)).calls
          = charged k (CurrentThreadMemTrackerSetter.construct env (some u) s).2.calls)
      ∧ (CurrentThreadMemTrackerSetter.destroy env
            (CurrentThreadMemTrackerSetter.construct env (some u) s).1
            (run_calls env cs (CurrentThreadMemTrackerSetter.construct env (some u) s).2)
          )._cache_size = 0 := by
  obtain ⟨e1, e2, _, e4, e5⟩ := set_mem_tracker_effect env old t s hold
  refine ⟨e1, e2, e4, e5, ?_⟩
  simp only [CurrentThreadMemTrackerSetter.destroy, CurrentThreadMemTrackerSetter.construct]
  obtain ⟨_, c2, c3, _, _⟩ := set_mem_tracker_effect env old (some u) s hold
  generalize (set_mem_tracker env (some u) s).2 = s1 at c2 c3
  generalize (set_mem_tracker env (some u) s).1 = o1
  have hu : (mem_tracker env s1).1 = some u := reports_of_tls env s1 u c3
  have hrun := run_calls_conserves env cs s1 u hu
  have hu2 : (mem_tracker env (run_calls env cs s1)).1 = some u := by
    rw [run_calls_reports]
    exact hu
  obtain ⟨_, d2, _, d4, d5⟩ := set_mem_tracker_effect env u o1 (run_calls env cs s1) hu2
  refine ⟨?_, fun k hk => ?_, d2⟩
  · rw [d4]
    have := hrun.1
    omega
  · rw [d5 k hk, hrun.2 k hk]

theorem set_mem_tracker_flushes_to_current_witness :
    (set_mem_tracker accepting_env (some 2) (thread_on 1 40)).2.calls
      = (thread_on 1 40).calls
        ++ (if (thread_on 1 40)._cache_size = 0 then []
            else [TrackerCall.consume 1 (thread_on 1 40)._cache_size]) :=
  (set_mem_tracker_flushes_to_current accepting_env (thread_on 1 40) 1 (some 2) 2
    [Call.mem_consume 7] rfl).1

/-- C18: with a non-null current tracker, starting from cache 0, after every
finite sequence of `mem_consume`, `mem_release`, `try_mem_consume` and `commit`
calls with non-negative sizes the local cache `c` satisfies
`-2 MiB < c < 2 MiB`; so what has been reported to the tracker since the start
differs from the total accounted for by less than 2 MiB either way. -/
theorem cache_bounded (env : ExecEnv) (s : ThreadState) (t : Nat) (cs : List Call)
    (ht : (mem_tracker env s).1 = some t) (h0 : s._cache_size = 0)
    (hsize : ∀ c ∈ cs, 0 ≤ c.size) :
    -(2 * 1024 * 1024) < (run_calls env cs s)._cache_size
      ∧ (run_calls env cs s)._cache_size < 2 * 1024 * 1024
      ∧ -(2 * 1024 * 1024)
          < requested_total env cs s - (charged t (run_calls env cs s).calls - charged t s.calls)
      ∧ requested_total env cs s - (charged t (run_calls env cs s).calls - charged t s.calls)
          < 2 * 1024 * 1024 := by
  have hB : BATCH_SIZE = 2 * 1024 * 1024 := rfl
  have hb := run_calls_bounded env cs s t ht hsize (by rw [h0]; decide) (by rw [h0]; decide)
  have hc := (run_calls_conserves env cs s t ht).1
  rw [hB] at hb
  omega

theorem cache_bounded_witness :
    -(2 * 1024 * 1024) < (run_calls accepting_env
        [Call.mem_consume 2097151, Call.mem_release 4194302, Call.try_mem_consume 9]
        (thread_on 1 0))._cache_size
      ∧ (run_calls accepting_env
        [Call.mem_consume 2097151, Call.mem_release 4194302, Call.try_mem_consume 9]
        (thread_on 1 0))._cache_size < 2 * 1024 * 1024 :=
  have h := cache_bounded accepting_env (thread_on 1 0) 1
    [Call.mem_consume 2097151, Call.mem_release 4194302, Call.try_mem_consume 9]
    rfl rfl (by decide)
  ⟨h.1, h.2.1⟩

end CurrentThread

end starrocks
